import Mathlib

/-!
Shallow embedding of the lottery lifecycle engine of `src/bot.py`, a
chat-platform raffle bot.  Pure Python helpers become Lean functions; the
global `lotteries` dict becomes an explicit `Store` value threaded through
the operations.  The chat-platform plumbing (channel lookup, message
formatting, direct messages) surrounds the engine and is not part of it;
each engine operation below models the state-relevant code of the
corresponding Python function, with the resolved lottery key passed in
directly.  Timestamps are modelled as integer seconds (the source stores
ISO strings of `datetime.utcnow()`), and the process-level random sources
(`uuid.uuid4` for ticket codes, `random.choice` for the draw) are passed
in explicitly as streams/indices.
-/

/-- ASCII model of the whitespace test used by Python `str.strip`. -/
def pyIsSpace (c : Char) : Bool :=
  c = ' ' || c = '\t' || c = '\n' || c = '\r' || c = '\x0b' || c = '\x0c'

/-- The uppercase-to-lowercase letter table of the ASCII alphabet. -/
def upperToLowerTable : List (Char × Char) :=
  [('A', 'a'), ('B', 'b'), ('C', 'c'), ('D', 'd'), ('E', 'e'), ('F', 'f'),
   ('G', 'g'), ('H', 'h'), ('I', 'i'), ('J', 'j'), ('K', 'k'), ('L', 'l'),
   ('M', 'm'), ('N', 'n'), ('O', 'o'), ('P', 'p'), ('Q', 'q'), ('R', 'r'),
   ('S', 's'), ('T', 't'), ('U', 'u'), ('V', 'v'), ('W', 'w'), ('X', 'x'),
   ('Y', 'y'), ('Z', 'z')]

/-- ASCII model of Python `str.lower` on one character (the source only
lowercases duration strings, whose meaningful alphabet is ASCII). -/
def pyToLower (c : Char) : Char :=
  match upperToLowerTable.lookup c with
  | some l => l
  | none => c

/-- ASCII model of Python `str.upper` on one character (ticket codes are
hex strings, so only `a`-`f` matter, but the full alphabet is mapped). -/
def pyToUpper (c : Char) : Char :=
  if c = 'a' then 'A' else if c = 'b' then 'B' else if c = 'c' then 'C'
  else if c = 'd' then 'D' else if c = 'e' then 'E' else if c = 'f' then 'F'
  else if c = 'g' then 'G' else if c = 'h' then 'H' else if c = 'i' then 'I'
  else if c = 'j' then 'J' else if c = 'k' then 'K' else if c = 'l' then 'L'
  else if c = 'm' then 'M' else if c = 'n' then 'N' else if c = 'o' then 'O'
  else if c = 'p' then 'P' else if c = 'q' then 'Q' else if c = 'r' then 'R'
  else if c = 's' then 'S' else if c = 't' then 'T' else if c = 'u' then 'U'
  else if c = 'v' then 'V' else if c = 'w' then 'W' else if c = 'x' then 'X'
  else if c = 'y' then 'Y' else if c = 'z' then 'Z' else c

/-- Python `str.lower` over a whole string (as a character list). -/
def pyLower (s : List Char) : List Char := s.map pyToLower

/-- Python `str.strip`: drop whitespace from both ends. -/
def pyStrip (s : List Char) : List Char :=
  ((s.dropWhile pyIsSpace).reverse.dropWhile pyIsSpace).reverse

/-- Python `str.isdigit` restricted to ASCII decimal digits. -/
def pyIsDigit (c : Char) : Bool := '0' ≤ c && c ≤ '9'

/-- Value of a decimal digit string. -/
def digitsVal (ds : List Char) : Nat :=
  ds.foldl (fun a c => a * 10 + (c.toNat - 48)) 0

/-- Model of Python `int(str)` after stripping: an optional sign followed
by a nonempty run of decimal digits; anything else raises `ValueError`,
modelled as `none`.  (Python also accepts underscore digit grouping and
non-ASCII digits; those never occur in this system's inputs and are not
modelled.) -/
def pyIntSign (c : Char) (rest : List Char) : Option Int :=
  if c = '+' then
    if rest ≠ [] ∧ rest.all pyIsDigit = true then some ((digitsVal rest : Int)) else none
  else if c = '-' then
    if rest ≠ [] ∧ rest.all pyIsDigit = true then some (-(digitsVal rest : Int)) else none
  else if (c :: rest).all pyIsDigit = true then some ((digitsVal (c :: rest) : Int)) else none

/-- See `pyIntSign`: the empty stripped string also raises. -/
def pyIntCore (s : List Char) : Option Int :=
  match s with
  | [] => none
  | c :: rest => pyIntSign c rest

/-- Model of Python `int(str)`: `int` ignores surrounding whitespace. -/
def pyInt (s : List Char) : Option Int := pyIntCore (pyStrip s)

/-- The suffix dispatch of `parse_duration` on the already-normalised
string (src/bot.py lines 70-76): a trailing `s`/`m`/`h` multiplies the
prefix by 1/60/3600, and a bare string is parsed as seconds.  A raised
`ValueError` from `int()` is modelled as `none`. -/
def parse_duration_tail (t : List Char) : Option Int :=
  if t.getLast? = some 's' then pyInt t.dropLast
  else if t.getLast? = some 'm' then (pyInt t.dropLast).map (fun n => n * 60)
  else if t.getLast? = some 'h' then (pyInt t.dropLast).map (fun n => n * 3600)
  else pyInt t

/-- `parse_duration` (src/bot.py lines 61-76): `s = s.strip().lower()`
followed by the suffix dispatch. -/
def parse_duration (s : List Char) : Option Int :=
  parse_duration_tail (pyLower (pyStrip s))

/-- `gen_ticket_code` (src/bot.py lines 78-81): `uuid.uuid4().hex[:8].upper()`.
The uuid4 hex output (32 random hex characters) is supplied by the caller,
since it is process randomness. -/
def gen_ticket_code (uuid_hex : List Char) : String :=
  ⟨(uuid_hex.take 8).map pyToUpper⟩

/-- One entry of a lottery's `tickets` list: `{"code": ..., "buyer_id": ...}`. -/
structure Ticket where
  code : String
  buyer_id : String
deriving Repr, DecidableEq

/-- One lottery record (`lottery_obj` built in `lottery_create`,
src/bot.py lines 305-315, with `id` filled in at line 319).  `max_tickets`
is `int(parts[3])` or `None`; timestamps are modelled as integer seconds. -/
structure Lottery where
  id : String
  item : String
  seller_id : String
  ticket_price : String
  max_tickets : Option Int
  image_url : Option String
  tickets : List Ticket
  created_at : Int
  end_time : Int
  ticket_channel_id : String
deriving Repr, DecidableEq

/-- The global `lotteries` dict (src/bot.py line 38): a mapping from
message-id string to lottery record. -/
abbrev Store := String → Option Lottery

/-- The empty mapping. -/
def emptyStore : Store := fun _ => none

/-- `lotteries[k] = v`. -/
def storeSet (s : Store) (k : String) (v : Lottery) : Store :=
  fun k2 => if k2 = k then some v else s k2

/-- `lotteries.pop(k, None)` together with the dict left behind: when the
key is absent the dict is unchanged and `None` is returned. -/
def storePop (s : Store) (k : String) : Option Lottery × Store :=
  match s k with
  | none => (none, s)
  | some v => (some v, fun k2 => if k2 = k then none else s k2)

/-- Model of `load_data` (src/bot.py lines 43-53).  The persisted file is
modelled by what the loading steps observe of it: `none` — the file does
not exist (`os.path.exists` is false); `some none` — the file exists but
reading or parsing it raises (malformed snapshot), which the bare
`except` turns into an empty store; `some (some d)` — the file parses,
and `d` is the optional `"lotteries"` entry of the parsed document
(`data.get("lotteries", {})` defaults to the empty mapping when the key
is absent). -/
def load_data : Option (Option (Option Store)) → Store
  | none => emptyStore
  | some none => emptyStore
  | some (some none) => emptyStore
  | some (some (some ls)) => ls

/-- Model of `save_data` (src/bot.py lines 55-59) at the level of the
persisted file's contents.  `save_lock` serialises saves with respect to
each other, but the file itself is opened with mode `"w"`, which
truncates the existing file in place, after which `json.dump` streams
the new serialization into it.  Given a serializer (abstracting
`json.dumps`), the previous file contents and the store being saved,
this is the ordered sequence of file contents observable by a concurrent
reader of the file, or left behind by a write interrupted at that point:
the old contents, the truncated file, then each prefix of the new
serialization up to the whole of it. -/
def save_data_file_history (serialize : Store → List Char) (old : List Char)
    (store : Store) : List (List Char) :=
  old :: [] :: (List.range (serialize store).length).map
    (fun k => (serialize store).take (k + 1))

/-- Outcome of `!buy` (src/bot.py lines 326-386), restricted to the
engine decisions: the count guard (line 333), the active-lottery lookup
(lines 353-358), the capacity guard (lines 360-364) and the commit
(lines 366-373). -/
inductive BuyResult where
  | invalid_count
  | no_active_lottery
  | not_enough_tickets (remaining : Int)
  | purchased (codes : List String)
deriving Repr, DecidableEq

/-- The commit loop of `buy_tickets` (src/bot.py lines 366-373): generate
`count` codes from the uuid stream and append one ticket per code, all
bearing the buyer's id. -/
def buy_commit (store : Store) (msg_id buyer_id : String) (count : Int)
    (uuids : Nat → List Char) (lottery : Lottery) : BuyResult × Store :=
  let new_codes := (List.range count.toNat).map (fun i => gen_ticket_code (uuids i))
  let new_tickets := new_codes.map (fun c => { code := c, buyer_id := buyer_id : Ticket })
  (BuyResult.purchased new_codes,
    storeSet store msg_id { lottery with tickets := lottery.tickets ++ new_tickets })

/-- `buy_tickets` (src/bot.py lines 326-386).  The display-channel
message search resolves which lottery key the purchase targets; the model
receives that key directly.  The uuid stream supplies the randomness of
`gen_ticket_code`. -/
def buy_tickets (store : Store) (msg_id buyer_id : String) (count : Int)
    (uuids : Nat → List Char) : BuyResult × Store :=
  if count ≤ 0 then (BuyResult.invalid_count, store)
  else
    match store msg_id with
    | none => (BuyResult.no_active_lottery, store)
    | some lottery =>
      let current_sold := lottery.tickets.length
      match lottery.max_tickets with
      | some max_tickets =>
        if (current_sold : Int) + count > max_tickets then
          (BuyResult.not_enough_tickets (max_tickets - current_sold), store)
        else buy_commit store msg_id buyer_id count uuids lottery
      | none => buy_commit store msg_id buyer_id count uuids lottery

/-- A finalization outcome as emitted to the notification gateway
(src/bot.py lines 181-218): either a winner announcement carrying the
winning ticket's buyer and code, or a no-sale announcement. -/
inductive Outcome where
  | winner (buyer_id code item seller_id : String)
  | no_sale (item seller_id : String)
deriving Repr, DecidableEq

/-- Result of `finalize_lottery`: the silent early return when the
lottery is already absent (src/bot.py lines 173-175), or a settled
outcome. -/
inductive FinalizeResult where
  | already_finalized
  | settled (o : Outcome)
deriving Repr, DecidableEq

/-- `finalize_lottery` (src/bot.py lines 169-220): pop the lottery from
the dict first; if it was absent, return without any outcome; otherwise
decide the outcome from the popped record.  `random.choice(tickets)`
draws a uniformly random index below `len(tickets)`; the index is the
explicit parameter `r` (reduced mod the length for totality — callers
model the uniform draw by ranging `r` over indices below the length). -/
def finalize_lottery (store : Store) (msg_id : String) (r : Nat) :
    FinalizeResult × Store :=
  match storePop store msg_id with
  | (none, s) => (FinalizeResult.already_finalized, s)
  | (some lottery, s) =>
    match lottery.tickets with
    | [] => (FinalizeResult.settled (Outcome.no_sale lottery.item lottery.seller_id), s)
    | t0 :: rest =>
      let winning := (t0 :: rest).getD (r % (t0 :: rest).length) t0
      (FinalizeResult.settled
        (Outcome.winner winning.buyer_id winning.code lottery.item lottery.seller_id), s)

/-- Outcome of `!lottery create` (src/bot.py lines 249-324), restricted
to the engine decisions: the `max_tickets` parse (lines 283-287), the
duration parse (lines 294-298) and the record construction and insertion
(lines 300-321). -/
inductive CreateResult where
  | bad_max_tickets
  | bad_duration
  | created (msg_id : String)
deriving Repr, DecidableEq

/-- The optional `max_tickets` argument: absent, or a string that
`int()` must accept (src/bot.py lines 282-287). -/
def parse_max_tickets : Option (List Char) → Option (Option Int)
  | none => some none
  | some raw =>
    match pyInt raw with
    | none => none
    | some m => some (some m)

/-- `lottery_create` (src/bot.py lines 249-324): parse the cap, parse the
duration, then build the record with an empty ticket list and
`end_time = now + seconds` and insert it under the posted message id.
Parse failures are reported before any state change. -/
def lottery_create (store : Store) (now : Int) (msg_id item seller_id ticket_price : String)
    (duration_raw : List Char) (max_raw : Option (List Char))
    (image_url : Option String) (ticket_channel_id : String) :
    CreateResult × Store :=
  match parse_max_tickets max_raw with
  | none => (CreateResult.bad_max_tickets, store)
  | some max_tickets =>
    match parse_duration duration_raw with
    | none => (CreateResult.bad_duration, store)
    | some seconds =>
      let lottery_obj : Lottery := {
        id := msg_id
        item := item
        seller_id := seller_id
        ticket_price := ticket_price
        max_tickets := max_tickets
        image_url := image_url
        tickets := []
        created_at := now
        end_time := now + seconds
        ticket_channel_id := ticket_channel_id }
      (CreateResult.created msg_id, storeSet store msg_id lottery_obj)

/-- One engine operation against the store: the three mutating entry
points of src/bot.py (`!lottery create`, `!buy`, and a finalization
trigger from a timer or `!endlottery`). -/
inductive LotteryOp where
  | create (now : Int) (msg_id item seller_id ticket_price : String)
      (duration_raw : List Char) (max_raw : Option (List Char))
      (image_url : Option String) (ticket_channel_id : String)
  | buy (msg_id buyer_id : String) (count : Int) (uuids : Nat → List Char)
  | finalize (msg_id : String) (r : Nat)

/-- Apply one operation to the store. -/
def runOp (store : Store) : LotteryOp → Store
  | LotteryOp.create now msg_id item seller price dur maxr img chan =>
    (lottery_create store now msg_id item seller price dur maxr img chan).2
  | LotteryOp.buy msg_id buyer count uuids =>
    (buy_tickets store msg_id buyer count uuids).2
  | LotteryOp.finalize msg_id r =>
    (finalize_lottery store msg_id r).2

/-- Apply a sequence of operations. -/
def runOps (store : Store) (ops : List LotteryOp) : Store :=
  ops.foldl runOp store

/-- A creation's cap, when one parses, is nonnegative (the spec's data
model makes `maxTickets` a positive integer cap). -/
def capNonneg : LotteryOp → Prop
  | LotteryOp.create _ _ _ _ _ _ maxr _ _ =>
    ∀ M : Int, parse_max_tickets maxr = some (some M) → 0 ≤ M
  | _ => True

/-- The capacity invariant over a whole store: every capped lottery holds
at most its cap. -/
def capOK (store : Store) : Prop :=
  ∀ (msg_id : String) (lot : Lottery) (M : Int),
    store msg_id = some lot → lot.max_tickets = some M →
    (lot.tickets.length : Int) ≤ M

/-- The tickets appended by the commit loop of `buy_tickets` (src/bot.py
lines 366-371): one per generated code, all bearing the buyer's id. -/
def new_tickets (buyer_id : String) (count : Int) (uuids : Nat → List Char) : List Ticket :=
  (List.range count.toNat).map (fun i => (⟨gen_ticket_code (uuids i), buyer_id⟩ : Ticket))

/-- Concrete fixture: a ticket held by buyer A. -/
def exTicket1 : Ticket := ⟨"AAAA1111", "buyerA"⟩

/-- Concrete fixture: a ticket held by buyer B. -/
def exTicket2 : Ticket := ⟨"BBBB2222", "buyerB"⟩

/-- Concrete fixture: a lottery capped at 2 tickets with 1 already sold. -/
def exLotCap : Lottery :=
  ⟨"1", "Sword", "seller9", "50", some 2, none, [exTicket1], 0, 3600, "chan1"⟩

/-- Concrete fixture: a store holding `exLotCap` under key "1". -/
def exStoreCap : Store := fun k => if k = "1" then some exLotCap else none

/-- Concrete fixture: an uncapped lottery with no sales whose `end_time`
(0) is already in the past relative to any positive current time. -/
def exLotOpen : Lottery :=
  ⟨"1", "Sword", "seller9", "50", none, none, [], 0, 0, "chan1"⟩

/-- Concrete fixture: a store holding `exLotOpen` under key "1". -/
def exStoreOpen : Store := fun k => if k = "1" then some exLotOpen else none

/-- Concrete fixture: an uncapped lottery with two sold tickets. -/
def exLotTwo : Lottery :=
  ⟨"2", "Shield", "seller9", "10", none, none, [exTicket1, exTicket2], 0, 3600, "chan2"⟩

/-- Concrete fixture: a store holding `exLotTwo` under key "2". -/
def exStoreTwo : Store := fun k => if k = "2" then some exLotTwo else none

/-- Concrete fixture: a uuid stream that always returns the same hex
string (uuid4 collisions are improbable but possible; the engine performs
no collision check, so the stream is chosen adversarially where needed). -/
def exUuidStream : Nat → List Char := fun _ => "deadbeefdeadbeefdeadbeefdeadbeef".toList

/-! Helper lemmas about the string primitives. -/

theorem dropWhile_head_not {α : Type} (p : α → Bool) (l : List α) (c : α)
    (h : (l.dropWhile p).head? = some c) : p c = false := by
  induction l with
  | nil => simp at h
  | cons a t ih =>
    rw [List.dropWhile_cons] at h
    by_cases hp : p a = true
    · exact ih (by simpa [hp] using h)
    · rw [if_neg hp] at h
      simp only [List.head?_cons, Option.some.injEq] at h
      subst h
      exact Bool.eq_false_iff.mpr hp

theorem dropWhile_eq_self_of_head {α : Type} (p : α → Bool) (l : List α)
    (h : ∀ c, l.head? = some c → p c = false) : l.dropWhile p = l := by
  cases l with
  | nil => rfl
  | cons a t =>
    rw [List.dropWhile_cons, if_neg]
    simp [h a rfl]

theorem dropWhile_getLast {α : Type} (p : α → Bool) (l : List α) (c : α)
    (h : (l.dropWhile p).getLast? = some c) : l.getLast? = some c := by
  induction l with
  | nil => simp at h
  | cons a t ih =>
    rw [List.dropWhile_cons] at h
    by_cases hp : p a = true
    · rw [if_pos hp] at h
      have ht := ih h
      cases t with
      | nil => simp at ht
      | cons b t2 => rw [List.getLast?_cons_cons]; exact ht
    · rw [if_neg hp] at h
      exact h

theorem getLast_all {α : Type} (p : α → Bool) (l : List α) (h : l.all p = true)
    (c : α) (hc : l.getLast? = some c) : p c = true := by
  induction l with
  | nil => simp at hc
  | cons a t ih =>
    rw [List.all_cons, Bool.and_eq_true] at h
    cases t with
    | nil =>
      simp only [List.getLast?_singleton, Option.some.injEq] at hc
      subst hc
      exact h.1
    | cons b t2 =>
      rw [List.getLast?_cons_cons] at hc
      exact ih h.2 hc

theorem pyStrip_head_not (l : List Char) (c : Char)
    (h : (pyStrip l).head? = some c) : pyIsSpace c = false := by
  unfold pyStrip at h
  rw [List.head?_reverse] at h
  have h2 := dropWhile_getLast _ _ _ h
  rw [List.getLast?_reverse] at h2
  exact dropWhile_head_not _ _ _ h2

theorem pyStrip_getLast_not (l : List Char) (c : Char)
    (h : (pyStrip l).getLast? = some c) : pyIsSpace c = false := by
  unfold pyStrip at h
  rw [List.getLast?_reverse] at h
  exact dropWhile_head_not _ _ _ h

theorem pyStrip_eq_self (l : List Char)
    (hh : ∀ c, l.head? = some c → pyIsSpace c = false)
    (hl : ∀ c, l.getLast? = some c → pyIsSpace c = false) :
    pyStrip l = l := by
  unfold pyStrip
  rw [dropWhile_eq_self_of_head _ _ hh,
    dropWhile_eq_self_of_head _ _ (fun c hc => hl c (by rwa [List.head?_reverse] at hc)),
    List.reverse_reverse]

theorem pyStrip_idem (l : List Char) : pyStrip (pyStrip l) = pyStrip l :=
  pyStrip_eq_self _ (pyStrip_head_not l) (pyStrip_getLast_not l)

theorem lookup_mem {l : List (Char × Char)} {c v : Char} (h : l.lookup c = some v) :
    (c, v) ∈ l := by
  induction l with
  | nil => simp at h
  | cons p t ih =>
    obtain ⟨k, b⟩ := p
    rw [List.lookup_cons] at h
    cases hk : c == k
    · rw [hk] at h
      exact List.mem_cons_of_mem _ (ih h)
    · rw [hk] at h
      obtain rfl : b = v := Option.some.inj h
      obtain rfl : c = k := beq_iff_eq.mp hk
      exact List.mem_cons_self _ _

theorem pyToLower_idem (c : Char) : pyToLower (pyToLower c) = pyToLower c := by
  unfold pyToLower
  cases h : upperToLowerTable.lookup c with
  | none => rw [h]
  | some l =>
    have hm := lookup_mem h
    fin_cases hm <;> decide

theorem pyIsSpace_pyToLower (c : Char) : pyIsSpace (pyToLower c) = pyIsSpace c := by
  unfold pyToLower
  cases h : upperToLowerTable.lookup c with
  | none => rfl
  | some l =>
    have hm := lookup_mem h
    fin_cases hm <;> decide

theorem pyToLower_digit (c : Char) (h : pyIsDigit c = true) : pyToLower c = c := by
  unfold pyToLower
  cases hl : upperToLowerTable.lookup c with
  | none => rfl
  | some l =>
    have hm := lookup_mem hl
    fin_cases hm <;> revert h <;> decide

theorem not_space_of_digit (c : Char) (h : pyIsDigit c = true) : pyIsSpace c = false := by
  by_contra hs
  rw [Bool.not_eq_false] at hs
  simp only [pyIsSpace, Bool.or_eq_true, decide_eq_true_eq] at hs
  casesm* _ ∨ _ <;> subst_vars <;> exact absurd h (by decide)

theorem digit_ne (c x : Char) (h : pyIsDigit c = true) (hx : pyIsDigit x = false) :
    c ≠ x := by
  intro he
  subst he
  rw [h] at hx
  exact Bool.noConfusion hx

theorem dropWhile_map_comm (p : Char → Bool) (f : Char → Char)
    (hp : ∀ c, p (f c) = p c) (l : List Char) :
    (l.map f).dropWhile p = (l.dropWhile p).map f := by
  induction l with
  | nil => rfl
  | cons a t ih =>
    simp only [List.map_cons, List.dropWhile_cons, hp a]
    cases h : p a
    · simp
    · simpa using ih

theorem pyStrip_pyLower (l : List Char) : pyStrip (pyLower l) = pyLower (pyStrip l) := by
  unfold pyStrip pyLower
  rw [dropWhile_map_comm _ _ pyIsSpace_pyToLower, ← List.map_reverse,
    dropWhile_map_comm _ _ pyIsSpace_pyToLower, ← List.map_reverse]

theorem pyLower_eq_self (l : List Char) (h : ∀ c ∈ l, pyToLower c = c) :
    pyLower l = l :=
  (List.map_congr_left h).trans (List.map_id l)

theorem pyLower_idem (l : List Char) : pyLower (pyLower l) = pyLower l := by
  unfold pyLower
  rw [List.map_map]
  exact List.map_congr_left (fun c _ => pyToLower_idem c)

/-- C10: the duration parser strips surrounding whitespace and lowercases
its input before examining the suffix, so every input string parses to
the same result as its trimmed, lowercased form (covering uppercase
`S`/`M`/`H` suffixes and surrounding whitespace). -/
theorem parse_duration_normalizes (s : List Char) :
    parse_duration s = parse_duration (pyLower (pyStrip s)) := by
  unfold parse_duration
  rw [pyStrip_pyLower, pyStrip_idem, pyLower_idem]

/-! Evaluation lemmas about `pyInt` and `parse_duration` on digit strings. -/

theorem head_all {α : Type} (p : α → Bool) (l : List α) (h : l.all p = true)
    (c : α) (hc : l.head? = some c) : p c = true := by
  cases l with
  | nil => simp at hc
  | cons a t =>
    obtain rfl : a = c := Option.some.inj (by simpa using hc)
    rw [List.all_cons, Bool.and_eq_true] at h
    exact h.1

theorem pyStrip_all_digits (ds : List Char) (h : ds.all pyIsDigit = true) :
    pyStrip ds = ds :=
  pyStrip_eq_self ds
    (fun c hc => not_space_of_digit c (head_all _ _ h c hc))
    (fun c hc => not_space_of_digit c (getLast_all _ _ h c hc))

theorem pyLower_all_digits (ds : List Char) (h : ds.all pyIsDigit = true) :
    pyLower ds = ds :=
  pyLower_eq_self _ (fun c hc => pyToLower_digit c (List.all_eq_true.mp h c hc))

theorem pyInt_digits (ds : List Char) (h1 : ds ≠ []) (h2 : ds.all pyIsDigit = true) :
    pyInt ds = some ((digitsVal ds : Int)) := by
  unfold pyInt
  rw [pyStrip_all_digits ds h2]
  cases ds with
  | nil => exact absurd rfl h1
  | cons d t =>
    have hd : pyIsDigit d = true := head_all _ _ h2 d rfl
    show pyIntSign d t = some ((digitsVal (d :: t) : Int))
    unfold pyIntSign
    rw [if_neg (digit_ne d '+' hd (by decide)), if_neg (digit_ne d '-' hd (by decide)),
      if_pos h2]

theorem pyInt_neg_digits (ds : List Char) (h1 : ds ≠ []) (h2 : ds.all pyIsDigit = true) :
    pyInt ('-' :: ds) = some (-(digitsVal ds : Int)) := by
  unfold pyInt
  rw [pyStrip_eq_self ('-' :: ds)
    (fun c hc => by obtain rfl : '-' = c := Option.some.inj (by simpa using hc); decide)
    (fun c hc => by
      cases ds with
      | nil => exact absurd rfl h1
      | cons d t =>
        rw [List.getLast?_cons_cons] at hc
        exact not_space_of_digit c (getLast_all _ _ h2 c hc))]
  show pyIntSign '-' ds = some (-(digitsVal ds : Int))
  unfold pyIntSign
  rw [if_neg (by decide : ¬('-' = '+')), if_pos rfl, if_pos ⟨h1, h2⟩]

theorem pyStrip_digits_concat (ds : List Char) (x : Char) (h1 : ds ≠ [])
    (h2 : ds.all pyIsDigit = true) (hx : pyIsSpace x = false) :
    pyStrip (ds ++ [x]) = ds ++ [x] :=
  pyStrip_eq_self (ds ++ [x])
    (fun c hc => by
      cases ds with
      | nil => exact absurd rfl h1
      | cons d t =>
        obtain rfl : d = c := Option.some.inj (by simpa using hc)
        exact not_space_of_digit d (head_all _ _ h2 d rfl))
    (fun c hc => by
      obtain rfl : x = c := Option.some.inj (by rw [List.getLast?_concat] at hc; exact hc)
      exact hx)

theorem pyLower_digits_concat (ds : List Char) (x : Char) (h2 : ds.all pyIsDigit = true)
    (hx : pyToLower x = x) :
    pyLower (ds ++ [x]) = ds ++ [x] := by
  have hds : pyLower ds = ds := pyLower_all_digits ds h2
  unfold pyLower at hds ⊢
  rw [List.map_append, hds, List.map_singleton, hx]

theorem getLast_digit (ds : List Char) (h1 : ds ≠ []) (h2 : ds.all pyIsDigit = true) :
    ∃ d, ds.getLast? = some d ∧ pyIsDigit d = true := by
  obtain ⟨d, hd⟩ : ∃ d, ds.getLast? = some d := ⟨ds.getLast h1, List.getLast?_eq_getLast ds h1⟩
  exact ⟨d, hd, getLast_all _ _ h2 d hd⟩

theorem parse_duration_digits_concat (ds : List Char) (x : Char) (h1 : ds ≠ [])
    (h2 : ds.all pyIsDigit = true) (hxs : pyIsSpace x = false) (hxl : pyToLower x = x) :
    parse_duration (ds ++ [x]) = parse_duration_tail (ds ++ [x]) := by
  unfold parse_duration
  rw [pyStrip_digits_concat ds x h1 h2 hxs, pyLower_digits_concat ds x h2 hxl]

theorem parse_duration_digits_s (ds : List Char) (h1 : ds ≠ [])
    (h2 : ds.all pyIsDigit = true) :
    parse_duration (ds ++ ['s']) = some ((digitsVal ds : Int)) := by
  rw [parse_duration_digits_concat ds 's' h1 h2 (by decide) (by decide)]
  unfold parse_duration_tail
  rw [List.getLast?_concat, if_pos rfl, List.dropLast_concat]
  exact pyInt_digits ds h1 h2

theorem parse_duration_digits_m (ds : List Char) (h1 : ds ≠ [])
    (h2 : ds.all pyIsDigit = true) :
    parse_duration (ds ++ ['m']) = some ((digitsVal ds : Int) * 60) := by
  rw [parse_duration_digits_concat ds 'm' h1 h2 (by decide) (by decide)]
  unfold parse_duration_tail
  rw [List.getLast?_concat, if_neg (by decide : ¬((some 'm' : Option Char) = some 's')),
    if_pos rfl, List.dropLast_concat, pyInt_digits ds h1 h2]
  rfl

theorem parse_duration_digits_h (ds : List Char) (h1 : ds ≠ [])
    (h2 : ds.all pyIsDigit = true) :
    parse_duration (ds ++ ['h']) = some ((digitsVal ds : Int) * 3600) := by
  rw [parse_duration_digits_concat ds 'h' h1 h2 (by decide) (by decide)]
  unfold parse_duration_tail
  rw [List.getLast?_concat, if_neg (by decide : ¬((some 'h' : Option Char) = some 's')),
    if_neg (by decide : ¬((some 'h' : Option Char) = some 'm')), if_pos rfl,
    List.dropLast_concat, pyInt_digits ds h1 h2]
  rfl

theorem parse_duration_digits_bare (ds : List Char) (h1 : ds ≠ [])
    (h2 : ds.all pyIsDigit = true) :
    parse_duration ds = some ((digitsVal ds : Int)) := by
  unfold parse_duration
  rw [pyStrip_all_digits ds h2, pyLower_all_digits ds h2]
  obtain ⟨d, hd, hdd⟩ := getLast_digit ds h1 h2
  unfold parse_duration_tail
  rw [hd, if_neg (fun hc => digit_ne d 's' hdd (by decide) (Option.some.inj hc)),
    if_neg (fun hc => digit_ne d 'm' hdd (by decide) (Option.some.inj hc)),
    if_neg (fun hc => digit_ne d 'h' hdd (by decide) (Option.some.inj hc))]
  exact pyInt_digits ds h1 h2

theorem parse_duration_neg_digits (ds : List Char) (h1 : ds ≠ [])
    (h2 : ds.all pyIsDigit = true) :
    parse_duration ('-' :: ds) = some (-(digitsVal ds : Int)) := by
  unfold parse_duration
  rw [pyStrip_eq_self ('-' :: ds)
    (fun c hc => by obtain rfl : '-' = c := Option.some.inj (by simpa using hc); decide)
    (fun c hc => by
      cases ds with
      | nil => exact absurd rfl h1
      | cons d t =>
        rw [List.getLast?_cons_cons] at hc
        exact not_space_of_digit c (getLast_all _ _ h2 c hc))]
  rw [pyLower_eq_self ('-' :: ds) (fun c hc => by
    rcases List.mem_cons.mp hc with rfl | hmem
    · decide
    · exact pyToLower_digit c (List.all_eq_true.mp h2 c hmem))]
  obtain ⟨d, hd, hdd⟩ := getLast_digit ds h1 h2
  have hlast : ('-' :: ds).getLast? = some d := by
    cases ds with
    | nil => exact absurd rfl h1
    | cons a t => rw [List.getLast?_cons_cons]; exact hd
  unfold parse_duration_tail
  rw [hlast, if_neg (fun hc => digit_ne d 's' hdd (by decide) (Option.some.inj hc)),
    if_neg (fun hc => digit_ne d 'm' hdd (by decide) (Option.some.inj hc)),
    if_neg (fun hc => digit_ne d 'h' hdd (by decide) (Option.some.inj hc))]
  exact pyInt_neg_digits ds h1 h2

/-! Characterization lemmas for `buy_tickets` and `finalize_lottery`. -/

theorem buy_tickets_commit_eq (store : Store) (msg_id buyer : String) (count : Int)
    (uuids : Nat → List Char) (lot : Lottery)
    (h : store msg_id = some lot) (hcount : ¬ count ≤ 0)
    (hcap : ∀ M, lot.max_tickets = some M → ¬ ((lot.tickets.length : Int) + count > M)) :
    buy_tickets store msg_id buyer count uuids =
      buy_commit store msg_id buyer count uuids lot := by
  unfold buy_tickets
  rw [if_neg hcount]
  simp only [h]
  cases hmax : lot.max_tickets with
  | none => rfl
  | some M =>
    show (if (lot.tickets.length : Int) + count > M then
        (BuyResult.not_enough_tickets (M - (lot.tickets.length : Int)), store)
      else buy_commit store msg_id buyer count uuids lot) =
      buy_commit store msg_id buyer count uuids lot
    rw [if_neg (hcap M hmax)]

theorem buy_tickets_purchased_inv (store : Store) (msg_id buyer : String) (count : Int)
    (uuids : Nat → List Char) (lot : Lottery) (codes : List String)
    (h : store msg_id = some lot)
    (hres : (buy_tickets store msg_id buyer count uuids).1 = BuyResult.purchased codes) :
    ¬ count ≤ 0 ∧
    ∀ M, lot.max_tickets = some M → ¬ ((lot.tickets.length : Int) + count > M) := by
  have hcount : ¬ count ≤ 0 := by
    intro hc
    unfold buy_tickets at hres
    rw [if_pos hc] at hres
    exact BuyResult.noConfusion hres
  refine ⟨hcount, fun M hmax hcap => ?_⟩
  unfold buy_tickets at hres
  rw [if_neg hcount] at hres
  simp only [h, hmax] at hres
  rw [if_pos hcap] at hres
  exact BuyResult.noConfusion hres

theorem buy_tickets_success_eq (store : Store) (msg_id buyer : String) (count : Int)
    (uuids : Nat → List Char) (lot : Lottery) (codes : List String)
    (h : store msg_id = some lot)
    (hres : (buy_tickets store msg_id buyer count uuids).1 = BuyResult.purchased codes) :
    0 < count ∧
    codes = (List.range count.toNat).map (fun i => gen_ticket_code (uuids i)) ∧
    (buy_tickets store msg_id buyer count uuids).2 =
      storeSet store msg_id { lot with tickets := lot.tickets ++ new_tickets buyer count uuids } := by
  obtain ⟨hcount, hcap⟩ := buy_tickets_purchased_inv store msg_id buyer count uuids lot
    codes h hres
  have heq := buy_tickets_commit_eq store msg_id buyer count uuids lot h hcount hcap
  rw [heq] at hres
  unfold buy_commit at hres
  simp only [BuyResult.purchased.injEq] at hres
  refine ⟨not_le.mp hcount, hres.symm, ?_⟩
  rw [heq]
  unfold buy_commit new_tickets
  simp only [List.map_map]
  rfl

theorem buy_tickets_capacity_reject (store : Store) (msg_id buyer : String) (count : Int)
    (uuids : Nat → List Char) (lot : Lottery) (M : Int)
    (h : store msg_id = some lot) (hmax : lot.max_tickets = some M)
    (hcount : 0 < count) (hover : (lot.tickets.length : Int) + count > M) :
    buy_tickets store msg_id buyer count uuids =
      (BuyResult.not_enough_tickets (M - lot.tickets.length), store) := by
  unfold buy_tickets
  rw [if_neg (not_le.mpr hcount)]
  simp only [h, hmax]
  rw [if_pos hover]

theorem finalize_absent (store : Store) (msg_id : String) (r : Nat)
    (h : store msg_id = none) :
    finalize_lottery store msg_id r = (FinalizeResult.already_finalized, store) := by
  unfold finalize_lottery storePop
  rw [h]

theorem finalize_present_snd (store : Store) (msg_id : String) (r : Nat) (lot : Lottery)
    (h : store msg_id = some lot) :
    (finalize_lottery store msg_id r).2 = fun k => if k = msg_id then none else store k := by
  unfold finalize_lottery storePop
  rw [h]
  rcases lot with ⟨lid, litem, lseller, lprice, lmax, limg, ltickets, lca, lend, ltc⟩
  cases ltickets with
  | nil => rfl
  | cons t0 rest => rfl

theorem buy_commit_snd (store : Store) (msg_id buyer : String) (count : Int)
    (uuids : Nat → List Char) (lot : Lottery) :
    (buy_commit store msg_id buyer count uuids lot).2 =
      storeSet store msg_id
        { lot with tickets := lot.tickets ++ new_tickets buyer count uuids } := by
  unfold buy_commit new_tickets
  simp only [List.map_map]
  rfl

theorem capOK_storeSet (store : Store) (msg_id : String) (v : Lottery) (h : capOK store)
    (hv : ∀ M, v.max_tickets = some M → (v.tickets.length : Int) ≤ M) :
    capOK (storeSet store msg_id v) := by
  intro id lot M hid hmax
  unfold storeSet at hid
  by_cases hk : id = msg_id
  · rw [if_pos hk] at hid
    obtain rfl : v = lot := Option.some.inj hid
    exact hv M hmax
  · rw [if_neg hk] at hid
    exact h id lot M hid hmax

theorem new_tickets_length (buyer : String) (count : Int) (uuids : Nat → List Char) :
    (new_tickets buyer count uuids).length = count.toNat := by
  unfold new_tickets
  simp

theorem capOK_runOp (store : Store) (op : LotteryOp) (h : capOK store)
    (hop : capNonneg op) : capOK (runOp store op) := by
  cases op with
  | create now msg_id item seller price dur maxr img chan =>
    show capOK ((lottery_create store now msg_id item seller price dur maxr img chan).2)
    unfold lottery_create
    cases hmt : parse_max_tickets maxr with
    | none => exact h
    | some mt =>
      cases hdur : parse_duration dur with
      | none => exact h
      | some seconds =>
        apply capOK_storeSet _ _ _ h
        intro M hM
        have hmM : mt = some M := hM
        have h0 : (0 : Int) ≤ M := hop M (by rw [hmt, hmM])
        simpa using h0
  | buy msg_id buyer count uuids =>
    show capOK ((buy_tickets store msg_id buyer count uuids).2)
    by_cases hc : count ≤ 0
    · unfold buy_tickets
      rw [if_pos hc]
      exact h
    · cases hlot : store msg_id with
      | none =>
        unfold buy_tickets
        rw [if_neg hc]
        simp only [hlot]
        exact h
      | some lot =>
        have hcommit : ∀ (hcap : ∀ M, lot.max_tickets = some M →
            ¬ ((lot.tickets.length : Int) + count > M)),
            capOK ((buy_tickets store msg_id buyer count uuids).2) := by
          intro hcap
          rw [buy_tickets_commit_eq store msg_id buyer count uuids lot hlot hc hcap,
            buy_commit_snd]
          apply capOK_storeSet _ _ _ h
          intro M hM
          have hmaxb : lot.max_tickets = some M := hM
          show ((lot.tickets ++ new_tickets buyer count uuids).length : Int) ≤ M
          rw [List.length_append, new_tickets_length, Nat.cast_add,
            Int.toNat_of_nonneg (le_of_lt (not_le.mp hc))]
          exact not_lt.mp (hcap M hmaxb)
        cases hmax : lot.max_tickets with
        | none => exact hcommit (fun M hM => absurd (hmax ▸ hM) (by simp))
        | some M =>
          by_cases hcap : (lot.tickets.length : Int) + count > M
          · rw [buy_tickets_capacity_reject store msg_id buyer count uuids lot M hlot
              hmax (not_le.mp hc) hcap]
            exact h
          · exact hcommit (fun M2 hM2 => by
              rw [hmax] at hM2
              obtain rfl : M = M2 := Option.some.inj hM2
              exact hcap)
  | finalize msg_id r =>
    intro id lot M hid hmax
    replace hid : (finalize_lottery store msg_id r).2 id = some lot := hid
    cases hlot : store msg_id with
    | none =>
      simp only [finalize_absent store msg_id r hlot] at hid
      exact h id lot M hid hmax
    | some lot0 =>
      simp only [finalize_present_snd store msg_id r lot0 hlot] at hid
      by_cases hk : id = msg_id
      · rw [if_pos hk] at hid
        exact Option.noConfusion hid
      · rw [if_neg hk] at hid
        exact h id lot M hid hmax

theorem capOK_runOps (startStore : Store) (ops : List LotteryOp) (h : capOK startStore)
    (hops : ∀ op ∈ ops, capNonneg op) : capOK (runOps startStore ops) := by
  induction ops generalizing startStore with
  | nil => exact h
  | cons op rest ih =>
    exact ih (runOp startStore op) (capOK_runOp _ _ h (hops op (List.mem_cons_self _ _)))
      (fun o ho => hops o (List.mem_cons_of_mem _ ho))

theorem finalize_present_fst_nil (store : Store) (msg_id : String) (r : Nat)
    (lot : Lottery) (h : store msg_id = some lot) (hts : lot.tickets = []) :
    (finalize_lottery store msg_id r).1 =
      FinalizeResult.settled (Outcome.no_sale lot.item lot.seller_id) := by
  unfold finalize_lottery storePop
  rw [h]
  rcases lot with ⟨lid, litem, lseller, lprice, lmax, limg, ltickets, lca, lend, ltc⟩
  subst hts
  rfl

theorem finalize_present_fst_cons (store : Store) (msg_id : String) (r : Nat)
    (lot : Lottery) (t0 : Ticket) (rest : List Ticket)
    (h : store msg_id = some lot) (hts : lot.tickets = t0 :: rest) :
    (finalize_lottery store msg_id r).1 =
      FinalizeResult.settled (Outcome.winner
        ((t0 :: rest).getD (r % (t0 :: rest).length) t0).buyer_id
        ((t0 :: rest).getD (r % (t0 :: rest).length) t0).code lot.item lot.seller_id) := by
  unfold finalize_lottery storePop
  rw [h]
  rcases lot with ⟨lid, litem, lseller, lprice, lmax, limg, ltickets, lca, lend, ltc⟩
  subst hts
  rfl

/-- C1: when a lottery's cap is `M`, a purchase request of `count ≥ 1`
tickets with `currentSold + count > M` is rejected in its entirety — the
store is returned unchanged and the error carries the remaining capacity
`M - currentSold`.  Consequently, over every sequence of create, buy and
finalize operations started from the empty store (with creation caps
nonnegative, as the spec's data model requires of a "positive integer
cap"), every capped lottery in the store holds at most its cap. -/
theorem capacity_invariant :
    (∀ (store : Store) (msg_id buyer : String) (count : Int) (uuids : Nat → List Char)
        (lot : Lottery) (M : Int),
      store msg_id = some lot → lot.max_tickets = some M → 0 < count →
      (lot.tickets.length : Int) + count > M →
      buy_tickets store msg_id buyer count uuids =
        (BuyResult.not_enough_tickets (M - (lot.tickets.length : Int)), store)) ∧
    (∀ ops : List LotteryOp, (∀ op ∈ ops, capNonneg op) →
      capOK (runOps emptyStore ops)) := by
  constructor
  · intro store msg_id buyer count uuids lot M h hmax hcount hover
    exact buy_tickets_capacity_reject store msg_id buyer count uuids lot M h hmax
      hcount hover
  · intro ops hops
    exact capOK_runOps emptyStore ops (fun id lot M hid _ => Option.noConfusion hid) hops

/-- Witness for `capacity_invariant`: a lottery capped at 2 with 1 sold
rejects a purchase of 2 (1 remaining), and the invariant holds after a
run consisting of one purchase. -/
theorem capacity_invariant_witness :
    buy_tickets exStoreCap "1" "buyerB" 2 exUuidStream =
      (BuyResult.not_enough_tickets (2 - (exLotCap.tickets.length : Int)), exStoreCap) ∧
    capOK (runOps emptyStore [LotteryOp.buy "1" "buyerB" 1 exUuidStream]) := by
  constructor
  · exact capacity_invariant.1 exStoreCap "1" "buyerB" 2 exUuidStream exLotCap 2
      (by decide) (by decide) (by decide) (by decide)
  · exact capacity_invariant.2 [LotteryOp.buy "1" "buyerB" 1 exUuidStream]
      (fun op hop => by
        simp only [List.mem_singleton] at hop
        subst hop
        exact trivial)

/-- C2: `finalize_lottery` pops the lottery from the store before
deciding anything, so after any finalization the lottery is absent; a
second trigger (duplicate timer fire or duplicate admin call) finds it
absent, returns the idempotent no-op result with no outcome, and leaves
the store untouched — and a call on an already-absent lottery does the
same. -/
theorem finalize_exactly_once :
    ∀ (store : Store) (msg_id : String) (r r2 : Nat),
      (finalize_lottery store msg_id r).2 msg_id = none ∧
      finalize_lottery ((finalize_lottery store msg_id r).2) msg_id r2 =
        (FinalizeResult.already_finalized, (finalize_lottery store msg_id r).2) ∧
      (store msg_id = none →
        finalize_lottery store msg_id r = (FinalizeResult.already_finalized, store)) := by
  intro store msg_id r r2
  have hgone : (finalize_lottery store msg_id r).2 msg_id = none := by
    cases hlot : store msg_id with
    | none =>
      simp only [finalize_absent store msg_id r hlot]
      exact hlot
    | some lot0 =>
      simp only [finalize_present_snd store msg_id r lot0 hlot]
      simp
  exact ⟨hgone, finalize_absent _ msg_id r2 hgone, finalize_absent store msg_id r⟩

/-- Witness for `finalize_exactly_once`: finalizing an absent lottery is
a no-op on the empty store. -/
theorem finalize_exactly_once_witness :
    finalize_lottery emptyStore "9" 0 = (FinalizeResult.already_finalized, emptyStore) :=
  (finalize_exactly_once emptyStore "9" 0 0).2.2 rfl

/-- C5: finalizing a lottery with an empty ticket list yields the
no-sale outcome, which carries no winner fields; with a non-empty ticket
list, the draw (modelling `random.choice` by a uniformly distributed
index `i` below the ticket count) selects exactly the `i`-th ticket of
the full sequence — each ticket, not each buyer, is chosen by exactly
one value of the random index — and the outcome carries that ticket's
buyer and code. -/
theorem finalize_outcome :
    (∀ (store : Store) (msg_id : String) (r : Nat) (lot : Lottery),
      store msg_id = some lot → lot.tickets = [] →
      (finalize_lottery store msg_id r).1 =
        FinalizeResult.settled (Outcome.no_sale lot.item lot.seller_id)) ∧
    (∀ (store : Store) (msg_id : String) (lot : Lottery) (i : Nat)
        (hi : i < lot.tickets.length),
      store msg_id = some lot →
      (finalize_lottery store msg_id i).1 =
        FinalizeResult.settled (Outcome.winner (lot.tickets.get ⟨i, hi⟩).buyer_id
          (lot.tickets.get ⟨i, hi⟩).code lot.item lot.seller_id)) := by
  constructor
  · intro store msg_id r lot h hemp
    exact finalize_present_fst_nil store msg_id r lot h hemp
  · intro store msg_id lot i hi h
    obtain ⟨t0, rest, hts⟩ : ∃ t0 rest, lot.tickets = t0 :: rest := by
      rcases hne : lot.tickets with _ | ⟨a, b⟩
      · rw [hne] at hi
        exact absurd hi (by simp)
      · exact ⟨a, b, rfl⟩
    rw [finalize_present_fst_cons store msg_id i lot t0 rest h hts]
    have hlen : i < (t0 :: rest).length := hts ▸ hi
    have hgd : (t0 :: rest).getD (i % (t0 :: rest).length) t0 = lot.tickets.get ⟨i, hi⟩ := by
      rw [Nat.mod_eq_of_lt hlen, List.get_eq_getElem]
      simp only [hts]
      rw [List.getD_eq_getElem?_getD, List.getElem?_eq_getElem hlen, Option.getD_some]
    rw [hgd]

/-- Witness for `finalize_outcome`: the empty lottery settles as no-sale,
and with two tickets the random index 1 selects the second ticket. -/
theorem finalize_outcome_witness :
    (finalize_lottery exStoreOpen "1" 0).1 =
      FinalizeResult.settled (Outcome.no_sale exLotOpen.item exLotOpen.seller_id) ∧
    (finalize_lottery exStoreTwo "2" 1).1 =
      FinalizeResult.settled (Outcome.winner (exLotTwo.tickets.get ⟨1, by decide⟩).buyer_id
        (exLotTwo.tickets.get ⟨1, by decide⟩).code exLotTwo.item exLotTwo.seller_id) :=
  ⟨finalize_outcome.1 exStoreOpen "1" 0 exLotOpen (by decide) (by decide),
    finalize_outcome.2 exStoreTwo "2" exLotTwo 1 (by decide) (by decide)⟩

/-- C9: a successful purchase of `count` tickets appends exactly `count`
new tickets at the end of the target lottery's ticket sequence, each
bearing the purchasing buyer's identifier; the lottery's other fields
are untouched (the updated record differs from the old one only in the
`tickets` field) and every other key of the store is unchanged. -/
theorem buy_frame :
    ∀ (store : Store) (msg_id buyer : String) (count : Int) (uuids : Nat → List Char)
      (lot : Lottery) (codes : List String),
      store msg_id = some lot →
      (buy_tickets store msg_id buyer count uuids).1 = BuyResult.purchased codes →
      ((codes.length : Int) = count ∧
        ((new_tickets buyer count uuids).length : Int) = count ∧
        (∀ t ∈ new_tickets buyer count uuids, t.buyer_id = buyer) ∧
        (buy_tickets store msg_id buyer count uuids).2 msg_id =
          some { lot with tickets := lot.tickets ++ new_tickets buyer count uuids } ∧
        (∀ k, k ≠ msg_id → (buy_tickets store msg_id buyer count uuids).2 k = store k)) := by
  intro store msg_id buyer count uuids lot codes h hres
  obtain ⟨hcount, hcodes, hsnd⟩ := buy_tickets_success_eq store msg_id buyer count uuids
    lot codes h hres
  have hlen : ((new_tickets buyer count uuids).length : Int) = count := by
    rw [new_tickets_length, Int.toNat_of_nonneg (le_of_lt hcount)]
  refine ⟨?_, hlen, ?_, ?_, ?_⟩
  · rw [hcodes]
    simp only [List.length_map, List.length_range]
    exact Int.toNat_of_nonneg (le_of_lt hcount)
  · intro t ht
    unfold new_tickets at ht
    simp only [List.mem_map] at ht
    obtain ⟨i, _, rfl⟩ := ht
    rfl
  · rw [hsnd]
    unfold storeSet
    rw [if_pos rfl]
  · intro k hk
    rw [hsnd]
    unfold storeSet
    rw [if_neg hk]

/-- Witness for `buy_frame`: buying one ticket on the two-ticket lottery
appends exactly the generated ticket. -/
theorem buy_frame_witness :
    (buy_tickets exStoreTwo "2" "buyerC" 1 exUuidStream).2 "2" =
      some { exLotTwo with
        tickets := exLotTwo.tickets ++ new_tickets "buyerC" 1 exUuidStream } :=
  (buy_frame exStoreTwo "2" "buyerC" 1 exUuidStream exLotTwo ["DEADBEEF"]
    (by decide) (by decide)).2.2.2.1

/-- C3 counterexample: with a uuid stream whose first two draws share
their first 8 hex characters, buying two tickets commits two IDENTICAL
codes — `buy_tickets` never checks the generated code against the
lottery's existing codes and never regenerates, so pairwise distinctness
fails. -/
theorem duplicate_code_committed :
    ((buy_tickets exStoreOpen "1" "buyerC" 2 exUuidStream).2 "1").map
        (fun l => l.tickets.map Ticket.code) = some ["DEADBEEF", "DEADBEEF"] ∧
    ¬ (["DEADBEEF", "DEADBEEF"] : List String).Nodup :=
  ⟨by decide, by decide⟩

/-- C3 (amended): the purchase commits exactly the uuid-derived generator
outputs, appended verbatim after the existing codes with no uniqueness
check and no regeneration; consequently the lottery's codes are pairwise
distinct only under the assumption that the existing codes together with
the generated ones are pairwise distinct (uuid collisions are improbable
but not excluded by construction). -/
theorem codes_appended_verbatim :
    ∀ (store : Store) (msg_id buyer : String) (count : Int) (uuids : Nat → List Char)
      (lot : Lottery) (codes : List String),
      store msg_id = some lot →
      (buy_tickets store msg_id buyer count uuids).1 = BuyResult.purchased codes →
      (((buy_tickets store msg_id buyer count uuids).2 msg_id).map
          (fun l => l.tickets.map Ticket.code) =
        some (lot.tickets.map Ticket.code ++
          (List.range count.toNat).map (fun i => gen_ticket_code (uuids i))) ∧
      ((lot.tickets.map Ticket.code ++
          (List.range count.toNat).map (fun i => gen_ticket_code (uuids i))).Nodup →
        ∀ lot2, (buy_tickets store msg_id buyer count uuids).2 msg_id = some lot2 →
          (lot2.tickets.map Ticket.code).Nodup)) := by
  intro store msg_id buyer count uuids lot codes h hres
  obtain ⟨hcount, hcodes, hsnd⟩ := buy_tickets_success_eq store msg_id buyer count uuids
    lot codes h hres
  have hget : (buy_tickets store msg_id buyer count uuids).2 msg_id =
      some { lot with tickets := lot.tickets ++ new_tickets buyer count uuids } := by
    rw [hsnd]
    unfold storeSet
    rw [if_pos rfl]
  have hmap : ({ lot with
        tickets := lot.tickets ++ new_tickets buyer count uuids }).tickets.map Ticket.code =
      lot.tickets.map Ticket.code ++
        (List.range count.toNat).map (fun i => gen_ticket_code (uuids i)) := by
    show (lot.tickets ++ new_tickets buyer count uuids).map Ticket.code = _
    rw [List.map_append]
    unfold new_tickets
    rw [List.map_map]
    rfl
  constructor
  · rw [hget, Option.map_some', hmap]
  · intro hnd lot2 hlot2
    rw [hget] at hlot2
    obtain rfl := Option.some.inj hlot2
    rw [hmap]
    exact hnd

/-- Witness for `codes_appended_verbatim`: the committed codes of the
concrete purchase are the existing codes followed by the generated ones. -/
theorem codes_appended_verbatim_witness :
    ((buy_tickets exStoreOpen "1" "buyerC" 2 exUuidStream).2 "1").map
        (fun l => l.tickets.map Ticket.code) =
      some (exLotOpen.tickets.map Ticket.code ++
        (List.range (2 : Int).toNat).map (fun i => gen_ticket_code (exUuidStream i))) :=
  (codes_appended_verbatim exStoreOpen "1" "buyerC" 2 exUuidStream exLotOpen
    ["DEADBEEF", "DEADBEEF"] (by decide) (by decide)).1

/-- C4 counterexample: `exLotOpen.end_time` (0) is strictly before the
current time 1, the finalization timer has not yet fired (the lottery is
still in the store), yet the purchase is accepted and a ticket is
recorded — `buy_tickets` never consults `end_time`, contradicting the
claim that such purchases are rejected. -/
theorem expired_purchase_accepted :
    exLotOpen.end_time < 1 ∧
    exStoreOpen "1" = some exLotOpen ∧
    (buy_tickets exStoreOpen "1" "buyerD" 1 exUuidStream).1 =
      BuyResult.purchased ["DEADBEEF"] ∧
    ((buy_tickets exStoreOpen "1" "buyerD" 1 exUuidStream).2 "1").map
      (fun l => l.tickets.length) = some 1 :=
  ⟨by decide, by decide, by decide, by decide⟩

/-- C4 (amended): the purchase preconditions do not include the
deadline.  Whenever the lottery is still in the active store, the count
is positive and capacity permits, the purchase succeeds even at a
current time strictly after `end_time` — the timer-latency window is a
sale window.  Purchases are rejected on deadline grounds only once
finalization has removed the lottery, after which the buyer is told no
active lottery exists. -/
theorem buy_ignores_deadline :
    (∀ (store : Store) (msg_id buyer : String) (count : Int) (uuids : Nat → List Char)
        (lot : Lottery) (now : Int),
      store msg_id = some lot → lot.end_time < now → 0 < count →
      (∀ M, lot.max_tickets = some M → (lot.tickets.length : Int) + count ≤ M) →
      (buy_tickets store msg_id buyer count uuids).1 =
        BuyResult.purchased ((List.range count.toNat).map
          (fun i => gen_ticket_code (uuids i)))) ∧
    (∀ (store : Store) (msg_id buyer : String) (count : Int) (uuids : Nat → List Char),
      0 < count → store msg_id = none →
      buy_tickets store msg_id buyer count uuids = (BuyResult.no_active_lottery, store)) := by
  constructor
  · intro store msg_id buyer count uuids lot now h _ hcount hcap
    rw [buy_tickets_commit_eq store msg_id buyer count uuids lot h (not_le.mpr hcount)
      (fun M hM => not_lt.mpr (hcap M hM))]
    rfl
  · intro store msg_id buyer count uuids hcount hnone
    unfold buy_tickets
    rw [if_neg (not_le.mpr hcount)]
    simp only [hnone]

/-- Witness for `buy_ignores_deadline`: the concrete expired lottery
accepts a purchase at current time 1; once absent, purchase reports no
active lottery. -/
theorem buy_ignores_deadline_witness :
    (buy_tickets exStoreOpen "1" "buyerE" 1 exUuidStream).1 =
      BuyResult.purchased ((List.range (1 : Int).toNat).map
        (fun i => gen_ticket_code (exUuidStream i))) ∧
    buy_tickets emptyStore "1" "buyerE" 1 exUuidStream =
      (BuyResult.no_active_lottery, emptyStore) :=
  ⟨buy_ignores_deadline.1 exStoreOpen "1" "buyerE" 1 exUuidStream exLotOpen 1
      (by decide) (by decide) (by decide)
      (fun M hM => by simp [exLotOpen] at hM),
    buy_ignores_deadline.2 emptyStore "1" "buyerE" 1 exUuidStream (by decide) rfl⟩

/-- C6 counterexample: the negative input "-10" is NOT rejected —
`int("-10")` parses it, creation succeeds, the store changes, and the
recorded `end_time` lies 10 seconds before `created_at`,
refuting the claim that negative input is a creation-time validation
error. -/
theorem negative_duration_accepted :
    parse_duration ['-', '1', '0'] = some (-10) ∧
    (lottery_create emptyStore 0 "1" "Sword" "seller9" "50" ['-', '1', '0'] none none
        "chan1").1 = CreateResult.created "1" ∧
    ((lottery_create emptyStore 0 "1" "Sword" "seller9" "50" ['-', '1', '0'] none none
        "chan1").2 "1").map Lottery.end_time = some (-10) :=
  ⟨by decide, by decide, by decide⟩

/-- C6 (amended): a trailing unit suffix `s`/`m`/`h` multiplies the
numeric prefix by 1, 60, 3600 respectively and a bare integer is read as
seconds; a NON-NUMERIC duration fails creation with a validation error
before any state change (so it can never fail at timer-fire time, as no
timer is created); but a NEGATIVE numeric duration is accepted rather
than rejected: it parses to a negative number of seconds (see the
counterexample). -/
theorem duration_parsing_spec :
    (∀ ds : List Char, ds ≠ [] → ds.all pyIsDigit = true →
      parse_duration (ds ++ ['s']) = some ((digitsVal ds : Int)) ∧
      parse_duration (ds ++ ['m']) = some ((digitsVal ds : Int) * 60) ∧
      parse_duration (ds ++ ['h']) = some ((digitsVal ds : Int) * 3600) ∧
      parse_duration ds = some ((digitsVal ds : Int)) ∧
      parse_duration ('-' :: ds) = some (-(digitsVal ds : Int))) ∧
    (∀ (store : Store) (now : Int) (msg_id item seller price : String)
        (dur : List Char) (maxr : Option (List Char)) (img : Option String)
        (chan : String) (mt : Option Int),
      parse_max_tickets maxr = some mt → parse_duration dur = none →
      lottery_create store now msg_id item seller price dur maxr img chan =
        (CreateResult.bad_duration, store)) := by
  constructor
  · intro ds h1 h2
    exact ⟨parse_duration_digits_s ds h1 h2, parse_duration_digits_m ds h1 h2,
      parse_duration_digits_h ds h1 h2, parse_duration_digits_bare ds h1 h2,
      parse_duration_neg_digits ds h1 h2⟩
  · intro store now msg_id item seller price dur maxr img chan mt hmt hdur
    unfold lottery_create
    rw [hmt, hdur]

/-- Witness for `duration_parsing_spec` at the digit string "7" and the
non-numeric duration "x". -/
theorem duration_parsing_spec_witness :
    (parse_duration (['7'] ++ ['s']) = some ((digitsVal ['7'] : Int)) ∧
      parse_duration (['7'] ++ ['m']) = some ((digitsVal ['7'] : Int) * 60) ∧
      parse_duration (['7'] ++ ['h']) = some ((digitsVal ['7'] : Int) * 3600) ∧
      parse_duration ['7'] = some ((digitsVal ['7'] : Int)) ∧
      parse_duration ('-' :: ['7']) = some (-(digitsVal ['7'] : Int))) ∧
    lottery_create emptyStore 0 "1" "Sword" "seller9" "50" ['x'] none none "chan1" =
      (CreateResult.bad_duration, emptyStore) :=
  ⟨duration_parsing_spec.1 ['7'] (by decide) (by decide),
    duration_parsing_spec.2 emptyStore 0 "1" "Sword" "seller9" "50" ['x'] none none
      "chan1" none rfl (by decide)⟩

/-- C7: loading never fails, whatever the persisted snapshot input: a
missing file, a snapshot whose read or parse raises, and a parsed
document without the "lotteries" entry all yield the empty mapping, and
a well-formed snapshot yields exactly its recorded lottery mapping —
startup always succeeds (`load_data` is a total function of the file
observation). -/
theorem load_data_total :
    load_data none = emptyStore ∧
    load_data (some none) = emptyStore ∧
    load_data (some (some none)) = emptyStore ∧
    ∀ ls : Store, load_data (some (some (some ls))) = ls :=
  ⟨rfl, rfl, rfl, fun _ => rfl⟩

/-- C8 counterexample: during a save of the serialization "new" over the
previous snapshot "old", the file passes through the truncated state and
the strict prefix "n" — observable contents that are neither the
previous durable snapshot nor the complete new one, refuting the claimed
write-new-then-replace discipline (the source opens the data file with
mode "w", truncating it in place). -/
theorem save_exposes_partial_state :
    ([] : List Char) ∈ save_data_file_history (fun _ => ['n', 'e', 'w']) ['o', 'l', 'd']
      emptyStore ∧
    (['n'] : List Char) ∈ save_data_file_history (fun _ => ['n', 'e', 'w']) ['o', 'l', 'd']
      emptyStore ∧
    ([] : List Char) ≠ ['o', 'l', 'd'] ∧ ([] : List Char) ≠ ['n', 'e', 'w'] ∧
    (['n'] : List Char) ≠ ['o', 'l', 'd'] ∧ (['n'] : List Char) ≠ ['n', 'e', 'w'] :=
  ⟨by decide, by decide, by decide, by decide, by decide, by decide⟩

/-- C8 (amended): saves are serialised against each other by `save_lock`
and start from the previous snapshot; a save that runs to completion
leaves the whole new serialization in the file; but the replacement is
not atomic — the write happens in place, so the truncated empty file is
an observable intermediate state for a concurrent reader or an
interrupted write. -/
theorem save_in_place_replacement :
    ∀ (serialize : Store → List Char) (old : List Char) (store : Store),
      serialize store ≠ [] →
      ((save_data_file_history serialize old store).head? = some old ∧
        serialize store ∈ save_data_file_history serialize old store ∧
        [] ∈ save_data_file_history serialize old store) := by
  intro serialize old store hne
  refine ⟨rfl, ?_, ?_⟩
  · unfold save_data_file_history
    refine List.mem_cons_of_mem _ (List.mem_cons_of_mem _ ?_)
    refine List.mem_map.mpr ⟨(serialize store).length - 1, ?_, ?_⟩
    · exact List.mem_range.mpr (Nat.sub_lt (List.length_pos.mpr hne) Nat.one_pos)
    · rw [Nat.sub_add_cancel
        (Nat.one_le_iff_ne_zero.mpr (fun h0 => hne (List.length_eq_zero.mp h0)))]
      exact List.take_length _
  · unfold save_data_file_history
    exact List.mem_cons_of_mem _ (List.mem_cons_self _ _)

/-- Witness for `save_in_place_replacement` at a one-character
serialization. -/
theorem save_in_place_replacement_witness :
    (save_data_file_history (fun _ => ['n']) ['o'] emptyStore).head? = some ['o'] ∧
    (['n'] : List Char) ∈ save_data_file_history (fun _ => ['n']) ['o'] emptyStore ∧
    ([] : List Char) ∈ save_data_file_history (fun _ => ['n']) ['o'] emptyStore :=
  save_in_place_replacement (fun _ => ['n']) ['o'] emptyStore (by decide)
